import Mathlib

/-!
Verification development for the renfe-navigation repository.

The development shallowly embeds the HTML train-list parser
(`app/parser.py`, function `parse_train_list_html`) and the station
catalog lookup (`app/renfe_common.py` / `app/renfe.py`, `find_station`).

Modelling conventions:
* HTML documents are modelled as trees of `Node` values — the tree that the
  lenient `html.parser` backend of BeautifulSoup produces.  Since that
  backend accepts every string, "the document could not be parsed as a
  tree" is modelled by the input `Option (List Node)` being `none`
  (matching the outer try/except of `parse_train_list_html`).
* BeautifulSoup matching semantics are embedded: `class` is a
  multi-valued attribute whose value is split on whitespace into tokens;
  a string class query matches by token membership (or by equality with
  the space-joined token list); a callable class query is applied to each
  token and to the space-joined token list.  Other attributes match by
  string equality.  `find_all` returns matches in document (preorder)
  order over strict descendants.
* Python `float` values arising from decimal literals are modelled
  exactly as rationals (`ℚ`); the embedded `pyFloat` accepts an optional
  sign, digits and at most one dot (the forms the parser can produce,
  plus signed forms reachable through raw data attributes), and returns
  `none` where Python `float` raises `ValueError`.  Exotic accepted
  literals (exponents, `inf`, `nan`, underscores) are outside the model.
* Python string helpers (`str.strip`, `str.replace`, `"".join`,
  `str.upper`, slicing) are embedded character-list-wise; the whitespace
  set is the common ASCII whitespace plus NBSP.
* Exceptions inside the per-row try block of the Python loop are
  modelled by `extractTrain` returning `none` (the row is skipped); the
  only statement in that block that can raise on string input is the
  `float` conversion of the "price from" run.  Likewise `extractFare`
  returns `none` exactly when the fare-price `float` conversion raises.
-/

/-- Whitespace characters recognised by the embedded Python string
helpers: ASCII whitespace plus the no-break space. -/
def isPySpace (c : Char) : Bool :=
  c == ' ' || c == '\t' || c == '\n' || c == '\r' ||
    c.toNat == 11 || c.toNat == 12 || c.toNat == 160

/-- Word characters for the embedded `\w` regex class (ASCII scope). -/
def isWordChar (c : Char) : Bool :=
  c.isAlphanum || c == '_'

/-- Drop leading and trailing whitespace from a character list
(embeds Python `str.strip`). -/
def stripWsL (l : List Char) : List Char :=
  ((l.dropWhile isPySpace).reverse.dropWhile isPySpace).reverse

/-- Python `str.strip()` on strings. -/
def pyStrip (s : String) : String :=
  ⟨stripWsL s.data⟩

/-- Python `"".join(l)`. -/
def strJoin (l : List String) : String :=
  ⟨(l.map String.data).flatten⟩

/-- Does `l` start with `pat`? -/
def startsWithL : List Char → List Char → Bool
  | [], _ => true
  | _ :: _, [] => false
  | a :: as, b :: bs => a == b && startsWithL as bs

/-- Does `l` contain `pat` as a contiguous run?  (Embeds Python
substring containment `pat in l`.) -/
def containsL (pat : List Char) : List Char → Bool
  | [] => pat.isEmpty
  | a :: t => startsWithL pat (a :: t) || containsL pat t

/-- Python `needle in hay` on strings. -/
def strContainsB (hay needle : String) : Bool :=
  containsL needle.data hay.data

/-- Python `s.startswith(pre)`. -/
def pyStartsWith (s pre : String) : Bool :=
  startsWithL pre.data s.data

/-- Fuel-driven replacement of every non-overlapping occurrence of `pat`
by `rep`, leftmost first (embeds Python `str.replace` for a non-empty
pattern).  `fuel` is the length of the remaining input, so the
recursion is structural and kernel-reducible. -/
def replaceFuel (pat rep : List Char) : Nat → List Char → List Char
  | _, [] => []
  | 0, l => l
  | fuel + 1, a :: t =>
    if !pat.isEmpty && startsWithL pat (a :: t) then
      rep ++ replaceFuel pat rep fuel (t.drop (pat.length - 1))
    else
      a :: replaceFuel pat rep fuel t

/-- Python `s.replace(pat, rep)` for non-empty `pat`. -/
def pyReplaceAll (s pat rep : String) : String :=
  ⟨replaceFuel pat.data rep.data s.data.length s.data⟩

/-- Python `s.replace(",", ".")`: a single-character pattern replace is
a character-wise map. -/
def commaToDot (s : String) : String :=
  ⟨s.data.map (fun c => if c == ',' then '.' else c)⟩

/-- Python `s.upper()` (ASCII scope). -/
def pyUpper (s : String) : String :=
  ⟨s.data.map Char.toUpper⟩

/-- Python slicing `s[:n]`. -/
def pyTake (n : Nat) (s : String) : String :=
  ⟨s.data.take n⟩

/-- Value of a digit list read in base 10. -/
def natOfDigits (l : List Char) : Nat :=
  l.foldl (fun a c => 10 * a + (c.toNat - 48)) 0

/-- Exact value of an unsigned decimal literal `ip [. fp]`. -/
def decVal (l : List Char) : ℚ :=
  let ip := l.takeWhile (fun c => c != '.')
  let fp := (l.dropWhile (fun c => c != '.')).drop 1
  (natOfDigits ip : ℚ) + (natOfDigits fp : ℚ) / (10 : ℚ) ^ fp.length

/-- Unsigned part of the embedded `float` conversion: digits with at
most one dot, at least one digit. -/
def pyFloatMag (l : List Char) : Option ℚ :=
  if !l.isEmpty && l.all (fun c => c.isDigit || c == '.') &&
      decide (l.count '.' ≤ 1) && l.any (fun c => c.isDigit) then
    some (decVal l)
  else
    none

/-- Embedded Python `float(s)` for decimal literals: optional
surrounding whitespace, optional sign, digits with at most one dot.
Returns `none` where Python raises `ValueError`. -/
def pyFloat (s : String) : Option ℚ :=
  match stripWsL s.data with
  | [] => none
  | c :: r =>
    if c == '-' then (pyFloatMag r).map (fun q => -q)
    else if c == '+' then pyFloatMag r
    else pyFloatMag (c :: r)

/-- First contiguous run of digits/commas in `s` (embeds
`re.search(r"([\d,]+)", s)` returning group 1). -/
def firstRun (s : String) : Option String :=
  let l := s.data.dropWhile (fun c => !(c.isDigit || c == ','))
  if l.isEmpty then none
  else some ⟨l.takeWhile (fun c => c.isDigit || c == ',')⟩

/-- Is `s` empty or whitespace-only? -/
def isBlankB (s : String) : Bool :=
  s.data.all isPySpace

/-- An HTML node as produced by BeautifulSoup's lenient tree builder:
either a text node (NavigableString) or an element with a tag name, an
attribute list and children. -/
inductive Node where
  | text : String → Node
  | elem : String → List (String × String) → List Node → Node
deriving Repr

mutual

/-- All nodes of the subtree rooted at `n`, in document (preorder)
order, `n` itself included. -/
def nodesIn : Node → List Node
  | .text s => [.text s]
  | .elem t a c => .elem t a c :: nodesInL c

/-- All nodes of a forest, in document order. -/
def nodesInL : List Node → List Node
  | [] => []
  | n :: r => nodesIn n ++ nodesInL r

end

/-- Strict descendants of a node, in document order — the search space
of BeautifulSoup's `find_all` called on that node. -/
def descendantsOf : Node → List Node
  | .text _ => []
  | .elem _ _ c => nodesInL c

mutual

/-- All text-node strings of the subtree at `n`, in document order. -/
def textsN : Node → List String
  | .text s => [s]
  | .elem _ _ c => textsL c

/-- All text-node strings of a forest, in document order. -/
def textsL : List Node → List String
  | [] => []
  | n :: r => textsN n ++ textsL r

end

/-- BeautifulSoup `get_text()`: concatenation of every descendant
string. -/
def getTextRawN (n : Node) : String :=
  strJoin (textsN n)

/-- BeautifulSoup `get_text(strip=True)`: each descendant string is
stripped, empty results are skipped, the rest are concatenated. -/
def getTextStripN (n : Node) : String :=
  strJoin (((textsN n).map pyStrip).filter (fun s => s != ""))

/-- Attribute lookup on an element (Python `tag.get(key)`); `none` on a
text node or an absent attribute. -/
def attrGet (n : Node) (k : String) : Option String :=
  match n with
  | .text _ => none
  | .elem _ a _ => (a.find? (fun p => p.1 == k)).map (fun p => p.2)

/-- Does `n` carry tag `t`? -/
def isElemTag (t : String) (n : Node) : Bool :=
  match n with
  | .text _ => false
  | .elem tag _ _ => tag == t

/-- Fuel-driven whitespace tokenizer: maximal non-whitespace runs of
`l`, in order.  `fuel` is the length of the remaining input, so the
recursion is structural and kernel-reducible. -/
def wsTokens : Nat → List Char → List String
  | _, [] => []
  | 0, _ => []
  | fuel + 1, c :: t =>
    if isPySpace c then wsTokens fuel t
    else
      ⟨c :: t.takeWhile (fun d => !isPySpace d)⟩ ::
        wsTokens fuel (t.dropWhile (fun d => !isPySpace d))

/-- Class-attribute token list of an element: BeautifulSoup splits the
multi-valued `class` attribute on whitespace. -/
def classTokenList (n : Node) : List String :=
  match attrGet n "class" with
  | none => []
  | some v => wsTokens v.data.length v.data

/-- Space-rejoined class token list (Python `" ".join(tokens)`). -/
def joinSp : List String → String
  | [] => ""
  | [s] => s
  | s :: t :: r => s ++ " " ++ joinSp (t :: r)

/-- BeautifulSoup string-valued class query `class_=target`: the target
matches one of the class tokens, or the whole space-joined token list.
Elements without a class attribute never match. -/
def classEqMatchB (target : String) (n : Node) : Bool :=
  match attrGet n "class" with
  | none => false
  | some _ =>
    let ts := classTokenList n
    ts.contains target || joinSp ts == target

/-- BeautifulSoup callable class query `class_=p`: the predicate is
applied to each class token and to the space-joined token list.
Elements without a class attribute never match (the callable receives
`None`, and every predicate used by the parser starts with a truthiness
test). -/
def classFunMatchB (p : String → Bool) (n : Node) : Bool :=
  match attrGet n "class" with
  | none => false
  | some _ =>
    let ts := classTokenList n
    ts.any p || p (joinSp ts)

/-- Fare record (`FareOption` pydantic model in `app/renfe.py`). -/
structure FareOption where
  name : String
  price : ℚ
  currency : String := "EUR"
  code : Option String := none
  tp_enlace : Option String := none
  features : List String := []
deriving Repr, DecidableEq

/-- Train record (`TrainModel` pydantic model in `app/renfe.py`). -/
structure TrainModel where
  train_id : String
  service_type : String
  departure_time : String
  arrival_time : String
  duration : String
  price_from : ℚ
  currency : String := "EUR"
  fares : List FareOption := []
  badges : List String := []
  accessible : Bool := false
  eco_friendly : Bool := false
deriving Repr, DecidableEq

/-- The train-row marker: `soup.find_all("div", class_="selectedTren",
role="listitem")`. -/
def isTrainRowB (n : Node) : Bool :=
  isElemTag "div" n && classEqMatchB "selectedTren" n &&
    attrGet n "role" == some "listitem"

/-- All train rows of a document, in document order. -/
def trainRowsOf (doc : List Node) : List Node :=
  (nodesInL doc).filter isTrainRowB

/-- Row field: the train id.  Python reads `row.get("id", "")` and then
`train_id_attr.replace("tren_", "") if train_id_attr else
f"unknown_{i}"`; `replace` removes every occurrence of the substring. -/
def trainIdOf (i : Nat) (row : Node) : String :=
  match attrGet row "id" with
  | none => "unknown_" ++ toString i
  | some v => if v == "" then "unknown_" ++ toString i
              else pyReplaceAll v "tren_" ""

/-- Embedded `re.search(r"Tipo de tren\s+(\w+)", alt)` returning group
1: leftmost occurrence of the literal followed by at least one
whitespace character and at least one word character. -/
def tipoWord : List Char → Option String
  | [] => none
  | a :: t =>
    if startsWithL "Tipo de tren".data (a :: t) then
      let rest := (a :: t).drop 12
      let ws := rest.takeWhile isPySpace
      let w := (rest.dropWhile isPySpace).takeWhile isWordChar
      if !ws.isEmpty && !w.isEmpty then some ⟨w⟩ else tipoWord t
    else tipoWord t

/-- Row field: service type, from the first `img` whose `alt` attribute
contains the phrase "Tipo de tren"; defaults to "Tren". -/
def serviceTypeOf (row : Node) : String :=
  match (descendantsOf row).find? (fun n =>
      isElemTag "img" n &&
        (match attrGet n "alt" with
         | some a => strContainsB a "Tipo de tren"
         | none => false)) with
  | none => "Tren"
  | some img =>
    match attrGet img "alt" with
    | none => "Tren"
    | some a =>
      if a == "" then "Tren"
      else match tipoWord a.data with
        | some w => w
        | none => "Tren"

/-- The time-label marker elements of a row:
`row.find_all("h5", {"aria-hidden": "true"})`. -/
def h5Elems (row : Node) : List Node :=
  (descendantsOf row).filter (fun n =>
    isElemTag "h5" n && attrGet n "aria-hidden" == some "true")

/-- Row fields: departure and arrival times.  Both empty unless the row
has at least two marker elements; each time has every occurrence of
" h" removed after stripped text extraction. -/
def timesOf (row : Node) : String × String :=
  match h5Elems row with
  | a :: b :: _ =>
    (pyReplaceAll (getTextStripN a) " h" "", pyReplaceAll (getTextStripN b) " h" "")
  | _ => ("", "")

/-- Row field: duration, from the first `span` with class
`text-number`; empty string when absent. -/
def durationOf (row : Node) : String :=
  match (descendantsOf row).find? (fun n =>
      isElemTag "span" n && classEqMatchB "text-number" n) with
  | none => ""
  | some el => getTextStripN el

/-- Title attribute of the first `span` with class `precio-final`, when
both exist. -/
def precioTitleOf (row : Node) : Option String :=
  ((descendantsOf row).find? (fun n =>
      isElemTag "span" n && classEqMatchB "precio-final" n)).bind
    (fun el => attrGet el "title")

/-- Row field: the "price from" value.  `some q` is a successfully
assigned price (0 when the element, the title, or a digit/comma run is
absent); `none` models the `float` `ValueError` that escapes into the
row-level exception handler and makes the parser skip the whole row. -/
def priceFromRes (row : Node) : Option ℚ :=
  match precioTitleOf row with
  | none => some 0
  | some t =>
    if t == "" then some 0
    else match firstRun t with
      | none => some 0
      | some run => pyFloat (commaToDot run)

/-- Badge elements of a row:
`row.find_all(class_=["badge-amarillo-junto", "badge-azul-junto"])`. -/
def badgeElems (row : Node) : List Node :=
  (descendantsOf row).filter (fun n =>
    classEqMatchB "badge-amarillo-junto" n || classEqMatchB "badge-azul-junto" n)

/-- Row field: badges — stripped texts of badge elements, empty results
excluded. -/
def badgesOf (row : Node) : List String :=
  ((badgeElems row).map getTextStripN).filter (fun s => s != "")

/-- The callable class filter of the fare-card query:
`lambda x: x and "seleccion-resumen-bottom" in x and "card" in x`. -/
def farePredB (s : String) : Bool :=
  s != "" && strContainsB s "seleccion-resumen-bottom" && strContainsB s "card"

/-- Is `n` a fare card?  `row.find_all("div", class_=<lambda>)`. -/
def isFareCardB (n : Node) : Bool :=
  isElemTag "div" n && classFunMatchB farePredB n

/-- Fare cards of a row, in document order. -/
def fareCardsOf (row : Node) : List Node :=
  (descendantsOf row).filter isFareCardB

/-- Style-marker query used for the fare name:
`header.find("span", style=lambda x: x and "padding-right" in x)`. -/
def styleHasPadding (n : Node) : Bool :=
  match attrGet n "style" with
  | none => false
  | some v => v != "" && strContainsB v "padding-right"

/-- Fare field: display name.  Preferred source is the styled span of
the card header; fallback is the leading run of non-digit, non-euro
characters of the header text (stripped); default "Desconocida". -/
def fareNameOf (card : Node) : String :=
  match (descendantsOf card).find? (fun n =>
      isElemTag "div" n && classEqMatchB "card-header" n) with
  | none => "Desconocida"
  | some header =>
    match (descendantsOf header).find? (fun n =>
        isElemTag "span" n && styleHasPadding n) with
    | some sp => getTextStripN sp
    | none =>
      let ht := getTextStripN header
      let lead := ht.data.takeWhile (fun c => !(c.isDigit || c == '€'))
      if lead.isEmpty then "Desconocida" else pyStrip ⟨lead⟩

/-- Fare field: price.  `some q` is a successfully assigned price (0
when the `data-precio-tarifa` attribute is absent or empty); `none`
models the `float` `ValueError` that makes the parser skip the fare. -/
def farePriceRes (card : Node) : Option ℚ :=
  match attrGet card "data-precio-tarifa" with
  | none => some 0
  | some v => if v == "" then some 0 else pyFloat (commaToDot v)

/-- Fare field: features — stripped texts of every `li` descendant,
empty results excluded. -/
def featuresOf (card : Node) : List String :=
  (((descendantsOf card).filter (isElemTag "li")).map getTextStripN).filter
    (fun s => s != "")

/-- Extraction of one fare card; `none` iff the fare-level exception
handler skips the card. -/
def extractFare (card : Node) : Option FareOption :=
  (farePriceRes card).map (fun p =>
    { name := fareNameOf card
      price := p
      currency := "EUR"
      code := attrGet card "data-cod-tarifa"
      tp_enlace := attrGet card "data-cod-tpenlacesilencio"
      features := featuresOf card })

/-- Row field: fares, in fare-card document order, skipped cards
omitted. -/
def faresOf (row : Node) : List FareOption :=
  (fareCardsOf row).filterMap extractFare

/-- Row fields: accessibility and eco flags, independent containment
tests over the raw text of the first `div` with class `info-varios`. -/
def accInfoOf (row : Node) : Bool × Bool :=
  match (descendantsOf row).find? (fun n =>
      isElemTag "div" n && classEqMatchB "info-varios" n) with
  | none => (false, false)
  | some d =>
    let t := getTextRawN d
    (strContainsB t "Plaza H disponible", strContainsB t "Cero emisiones")

/-- Extraction of one train row (`i` is the zero-based position of the
row among the matched rows); `none` iff the row-level exception handler
skips the row, which happens exactly when the "price from" conversion
raises. -/
def extractTrain (i : Nat) (row : Node) : Option TrainModel :=
  (priceFromRes row).map (fun p =>
    { train_id := trainIdOf i row
      service_type := serviceTypeOf row
      departure_time := (timesOf row).1
      arrival_time := (timesOf row).2
      duration := durationOf row
      price_from := p
      currency := "EUR"
      fares := faresOf row
      badges := badgesOf row
      accessible := (accInfoOf row).1
      eco_friendly := (accInfoOf row).2 })

/-- The parser `parse_train_list_html` of `app/parser.py`.  The input
is `none` when the document could not be parsed as a tree at all (the
outer try/except then yields the empty list); otherwise it is the
parsed forest. -/
def parse_train_list_html (input : Option (List Node)) : List TrainModel :=
  match input with
  | none => []
  | some doc => (trainRowsOf doc).enum.filterMap (fun p => extractTrain p.1 p.2)

/-- Station catalog record (`estaciones.json` entries are dictionaries;
`station.get(key, "")` defaults absent keys to the empty string, which
the model bakes into the fields). -/
structure Station where
  desgEstacionPlano : String := ""
  cdgoEstacion : String := ""
  cdgoAdmon : String := ""
  desgEstacion : String := ""
  clave : String := ""
deriving Repr, DecidableEq

/-- First loop of `find_station`: for each station, in catalog order,
test the uppercased display name, then the uppercased station code, for
equality with the uppercased query. -/
def exactLoopFind (up : String) : List Station → Option Station
  | [] => none
  | s :: r =>
    if pyUpper s.desgEstacionPlano == up then some s
    else if pyUpper s.cdgoEstacion == up then some s
    else exactLoopFind up r

/-- Second loop of `find_station`: substring or starts-with test of the
uppercased query against the uppercased display name. -/
def looseLoopFind (up : String) : List Station → Option Station
  | [] => none
  | s :: r =>
    let plano := pyUpper s.desgEstacionPlano
    if strContainsB plano up || pyStartsWith plano up then some s
    else looseLoopFind up r

/-- Synthesized generic record returned when no catalog entry matched
("using generic search"). -/
def genericStation (name : String) : Station :=
  { desgEstacionPlano := ""
    cdgoEstacion := pyTake 5 (pyUpper name)
    cdgoAdmon := "0071"
    desgEstacion := pyUpper name
    clave := "0071," ++ pyTake 5 (pyUpper name) ++ ",null" }

/-- The station lookup `find_station` of `app/renfe_common.py` (the
private `_find_station` of `app/renfe.py` is the same code).  The
catalog is a parameter; the Python code loads it from a bundled JSON
resource before running the same loops. -/
def find_station (catalog : List Station) (name : String) : Station :=
  let up := pyUpper name
  match exactLoopFind up catalog with
  | some s => s
  | none =>
    match looseLoopFind up catalog with
    | some s => s
    | none => genericStation name

/-- Exact-tier test of `find_station`, per catalog entry: display name
or station code matches the uppercased query exactly. -/
def exactMatchB (up : String) (s : Station) : Bool :=
  pyUpper s.desgEstacionPlano == up || pyUpper s.cdgoEstacion == up

/-- Loose-tier test of `find_station`, per catalog entry: the
uppercased query occurs in (or prefixes) the uppercased display name. -/
def looseMatchB (up : String) (s : Station) : Bool :=
  strContainsB (pyUpper s.desgEstacionPlano) up ||
    pyStartsWith (pyUpper s.desgEstacionPlano) up

/-! ## General lemmas -/

/-- Membership from an indexed lookup. -/
theorem mem_of_idx {α : Type _} {l : List α} {i : ℕ} {a : α} (h : l[i]? = some a) :
    a ∈ l := by
  rw [List.getElem?_eq_some] at h
  obtain ⟨hi, rfl⟩ := h
  exact List.getElem_mem hi

/-- Order preservation of `filterMap`: two successful extractions at
increasing input positions appear, in that order, in the output. -/
theorem filterMap_pair_sublist {α β : Type _} (f : α → Option β) :
    ∀ (l : List α) (i j : ℕ), i < j → ∀ (a b : α) (x y : β),
      l[i]? = some a → l[j]? = some b → f a = some x → f b = some y →
      [x, y].Sublist (l.filterMap f) := by
  intro l
  induction l with
  | nil => intro i j _ a b x y ha _ _ _; simp at ha
  | cons h t ih =>
    intro i j hij a b x y ha hb hfa hfb
    cases j with
    | zero => omega
    | succ jj =>
      rw [List.getElem?_cons_succ] at hb
      cases i with
      | zero =>
        rw [List.getElem?_cons_zero] at ha
        injection ha with ha
        subst ha
        have hy : y ∈ t.filterMap f := List.mem_filterMap.mpr ⟨b, mem_of_idx hb, hfb⟩
        rw [List.filterMap_cons_some hfa]
        exact List.Sublist.cons₂ x (List.singleton_sublist.mpr hy)
      | succ ii =>
        rw [List.getElem?_cons_succ] at ha
        exact (ih ii jj (by omega) a b x y ha hb hfa hfb).trans
          ((List.sublist_cons_self h t).filterMap f)

/-- A Python comprehension `[g a for a in l if g a]` is a `filterMap`. -/
theorem map_filter_eq_filterMap {α : Type _} (g : α → String) (l : List α) :
    (l.map g).filter (fun s => s != "") =
      l.filterMap (fun a => if g a == "" then none else some (g a)) := by
  induction l with
  | nil => rfl
  | cons h t ih =>
    simp only [List.map_cons, List.filter_cons, List.filterMap_cons]
    cases hg : g h == "" with
    | true =>
      have hg' : g h = "" := by simpa using hg
      simp [hg, hg', ih]
    | false =>
      have hg' : ¬ g h = "" := by simpa using hg
      simp [hg, hg', ih]

/-- Field characterization of a successfully extracted train. -/
theorem extractTrain_fields {i : ℕ} {row : Node} {t : TrainModel}
    (h : extractTrain i row = some t) :
    t.train_id = trainIdOf i row ∧ t.service_type = serviceTypeOf row ∧
      t.departure_time = (timesOf row).1 ∧ t.arrival_time = (timesOf row).2 ∧
      t.duration = durationOf row ∧ t.fares = faresOf row ∧
      t.badges = badgesOf row ∧ t.accessible = (accInfoOf row).1 ∧
      t.eco_friendly = (accInfoOf row).2 ∧ priceFromRes row = some t.price_from := by
  unfold extractTrain at h
  cases hp : priceFromRes row with
  | none => rw [hp] at h; simp at h
  | some p =>
    rw [hp] at h
    simp only [Option.map_some', Option.some.injEq] at h
    subst h
    simp

/-- Field characterization of a successfully extracted fare. -/
theorem extractFare_fields {card : Node} {fo : FareOption}
    (h : extractFare card = some fo) :
    fo.name = fareNameOf card ∧ fo.features = featuresOf card ∧
      fo.code = attrGet card "data-cod-tarifa" ∧
      fo.tp_enlace = attrGet card "data-cod-tpenlacesilencio" ∧
      fo.currency = "EUR" ∧ farePriceRes card = some fo.price := by
  unfold extractFare at h
  cases hp : farePriceRes card with
  | none => rw [hp] at h; simp at h
  | some p =>
    rw [hp] at h
    simp only [Option.map_some', Option.some.injEq] at h
    subst h
    simp

/-- The value of an unsigned decimal literal is non-negative. -/
theorem decVal_nonneg (l : List Char) : 0 ≤ decVal l := by
  unfold decVal
  have h1 : (0 : ℚ) ≤ (natOfDigits (l.takeWhile (fun c => c != '.')) : ℚ) :=
    Nat.cast_nonneg _
  have h2 : (0 : ℚ) ≤ (natOfDigits ((l.dropWhile (fun c => c != '.')).drop 1) : ℚ) :=
    Nat.cast_nonneg _
  have h3 : (0 : ℚ) ≤ (10 : ℚ) ^ ((l.dropWhile (fun c => c != '.')).drop 1).length :=
    pow_nonneg (by norm_num) _
  exact add_nonneg h1 (div_nonneg h2 h3)

/-- Magnitudes produced by the embedded `float` are non-negative. -/
theorem pyFloatMag_nonneg {l : List Char} {q : ℚ} (h : pyFloatMag l = some q) :
    0 ≤ q := by
  unfold pyFloatMag at h
  split at h
  · injection h with h; subst h; exact decVal_nonneg l
  · exact absurd h (by simp)

/-- Characters surviving a strip were in the input. -/
theorem stripWsL_subset {l : List Char} {c : Char} (h : c ∈ stripWsL l) : c ∈ l := by
  unfold stripWsL at h
  rw [List.mem_reverse] at h
  have h2 := (List.dropWhile_suffix isPySpace).subset h
  rw [List.mem_reverse] at h2
  exact (List.dropWhile_suffix isPySpace).subset h2

/-- The embedded `float` of a string of digits and dots is
non-negative (no sign character can occur). -/
theorem pyFloat_nonneg_of_chars {s : String} {q : ℚ}
    (hc : ∀ c ∈ s.data, c.isDigit = true ∨ c = '.')
    (h : pyFloat s = some q) : 0 ≤ q := by
  unfold pyFloat at h
  cases hl : stripWsL s.data with
  | nil => rw [hl] at h; exact absurd h (by simp)
  | cons c r =>
    rw [hl] at h
    have hcmem : c ∈ s.data := stripWsL_subset (hl ▸ List.mem_cons_self c r)
    have hcdig := hc c hcmem
    have hminus : (c == '-') = false := by
      rcases hcdig with hd | hd
      · cases hcc : c == '-' with
        | true =>
          have : c = '-' := by simpa using hcc
          subst this
          exact absurd hd (by decide)
        | false => rfl
      · subst hd; rfl
    have hplus : (c == '+') = false := by
      rcases hcdig with hd | hd
      · cases hcc : c == '+' with
        | true =>
          have : c = '+' := by simpa using hcc
          subst this
          exact absurd hd (by decide)
        | false => rfl
      · subst hd; rfl
    simp only [hminus, hplus, Bool.false_eq_true, if_false] at h
    exact pyFloatMag_nonneg h

/-- Characters of a digit/comma run are digits or commas. -/
theorem firstRun_chars {s run : String} (h : firstRun s = some run) :
    ∀ c ∈ run.data, c.isDigit = true ∨ c = ',' := by
  unfold firstRun at h
  dsimp only at h
  split at h
  · exact absurd h (by simp)
  · injection h with h
    subst h
    intro c hcm
    have := List.mem_takeWhile_imp hcm
    simpa using this

/-- Comma-to-dot conversion of a digit/comma string yields a digit/dot
string. -/
theorem commaToDot_chars {s : String}
    (hc : ∀ c ∈ s.data, c.isDigit = true ∨ c = ',') :
    ∀ c ∈ (commaToDot s).data, c.isDigit = true ∨ c = '.' := by
  intro c hcm
  unfold commaToDot at hcm
  simp only [List.mem_map] at hcm
  obtain ⟨c', hc', rfl⟩ := hcm
  rcases hc c' hc' with hd | hd
  · have : (c' == ',') = false := by
      cases hcc : c' == ',' with
      | true =>
        have : c' = ',' := by simpa using hcc
        subst this
        exact absurd hd (by decide)
      | false => rfl
    rw [this]
    simp [hd]
  · subst hd
    simp

/-- A list starts with itself followed by anything. -/
theorem startsWithL_self_append (n r : List Char) : startsWithL n (n ++ r) = true := by
  induction n with
  | nil => rfl
  | cons a as ih => simp [startsWithL, ih]

/-- Containment from a starts-with match. -/
theorem containsL_of_startsWithL {n l : List Char} (h : startsWithL n l = true) :
    containsL n l = true := by
  cases l with
  | nil =>
    cases n with
    | nil => rfl
    | cons a as => simp [startsWithL] at h
  | cons a t => simp [containsL, h]

/-- Containment is stable under prepending. -/
theorem containsL_append_left {n l : List Char} (pre : List Char)
    (h : containsL n l = true) : containsL n (pre ++ l) = true := by
  induction pre with
  | nil => simpa using h
  | cons a p ih => simp [containsL, ih]

/-- A list contains any of its contiguous parts. -/
theorem containsL_of_parts (pre n suf : List Char) :
    containsL n (pre ++ (n ++ suf)) = true :=
  containsL_append_left pre (containsL_of_startsWithL (startsWithL_self_append n suf))

/-- Every member of a token list is a contiguous part of the
space-joined list. -/
theorem joinSp_decomp {t : String} {ts : List String} (h : t ∈ ts) :
    ∃ pre suf, (joinSp ts).data = pre ++ (t.data ++ suf) := by
  induction ts with
  | nil => cases h
  | cons s r ih =>
    rcases List.mem_cons.mp h with rfl | hr
    · cases r with
      | nil => exact ⟨[], [], by simp [joinSp]⟩
      | cons s2 r2 =>
        refine ⟨[], (" " ++ joinSp (s2 :: r2)).data, ?_⟩
        show (t ++ " " ++ joinSp (s2 :: r2)).data = [] ++ (t.data ++ _)
        simp [String.data_append, List.append_assoc]
    · cases r with
      | nil => cases hr
      | cons s2 r2 =>
        obtain ⟨pre, suf, hps⟩ := ih hr
        refine ⟨(s ++ " ").data ++ pre, suf, ?_⟩
        show (s ++ " " ++ joinSp (s2 :: r2)).data = _
        rw [String.data_append, String.data_append, hps]
        simp [String.data_append, List.append_assoc]

/-- The space-joined token list contains each token as a substring. -/
theorem strContainsB_joinSp_of_mem {t : String} {ts : List String} (h : t ∈ ts) :
    strContainsB (joinSp ts) t = true := by
  obtain ⟨pre, suf, hps⟩ := joinSp_decomp h
  unfold strContainsB
  rw [hps]
  exact containsL_of_parts pre t.data suf

/-- A non-empty stripped list holds a non-whitespace character. -/
theorem stripWsL_has_nonws {l : List Char} (h : stripWsL l ≠ []) :
    ∃ c ∈ stripWsL l, isPySpace c = false := by
  unfold stripWsL at h ⊢
  have hnil : (l.dropWhile isPySpace).reverse.dropWhile isPySpace ≠ [] := by
    intro he
    rw [he] at h
    exact h rfl
  refine ⟨((l.dropWhile isPySpace).reverse.dropWhile isPySpace).head hnil,
    List.mem_reverse.mpr (List.head_mem hnil), ?_⟩
  exact List.head_dropWhile_not isPySpace _ hnil

/-- A non-empty stripped string is not blank. -/
theorem pyStrip_not_blank {s : String} (h : pyStrip s ≠ "") :
    isBlankB (pyStrip s) = false := by
  have hn : stripWsL s.data ≠ [] := by
    intro he
    apply h
    show (⟨stripWsL s.data⟩ : String) = ⟨[]⟩
    rw [he]
  obtain ⟨c, hc, hcf⟩ := stripWsL_has_nonws hn
  unfold isBlankB pyStrip
  rcases hall : List.all (stripWsL s.data) isPySpace with _ | _
  · rfl
  · rw [List.all_eq_true] at hall
    exact absurd (hall c hc) (by simp [hcf])

/-- Any entry produced by the strip-filter-join text extraction holds a
non-whitespace character, hence is not blank. -/
theorem getTextStripN_not_blank {n : Node} (h : getTextStripN n ≠ "") :
    isBlankB (getTextStripN n) = false := by
  unfold getTextStripN strJoin at h ⊢
  set segs := ((textsN n).map pyStrip).filter (fun s => s != "") with hsegs
  have hfl : (segs.map String.data).flatten ≠ [] := by
    intro he
    apply h
    show (⟨(segs.map String.data).flatten⟩ : String) = ⟨[]⟩
    rw [he]
  have hex : ∃ d ∈ segs.map String.data, d ≠ [] := by
    by_contra hall
    push_neg at hall
    exact hfl (List.flatten_eq_nil_iff.mpr hall)
  obtain ⟨d, hd, hdne⟩ := hex
  obtain ⟨seg, hsegm, rfl⟩ := List.mem_map.mp hd
  have hsf := List.mem_filter.mp hsegm
  obtain ⟨hsm, hsne⟩ := hsf
  obtain ⟨s0, _, rfl⟩ := List.mem_map.mp hsm
  have hs0 : pyStrip s0 ≠ "" := by simpa using hsne
  have hn0 : stripWsL s0.data ≠ [] := by
    intro he
    apply hs0
    show (⟨stripWsL s0.data⟩ : String) = ⟨[]⟩
    rw [he]
  obtain ⟨c, hc, hcf⟩ := stripWsL_has_nonws hn0
  have hcj : c ∈ (segs.map String.data).flatten := by
    refine List.mem_flatten.mpr ⟨(pyStrip s0).data, ?_, ?_⟩
    · exact List.mem_map.mpr ⟨pyStrip s0, hsegm, rfl⟩
    · exact hc
  unfold isBlankB
  rcases hall : List.all (segs.map String.data).flatten isPySpace with _ | _
  · rfl
  · rw [List.all_eq_true] at hall
    exact absurd (hall c hcj) (by simp [hcf])

/-- The first loop of `find_station` is a `find?` over the per-entry
exact test (display name checked before code within each entry). -/
theorem exactLoopFind_eq_find (up : String) (l : List Station) :
    exactLoopFind up l = l.find? (exactMatchB up) := by
  induction l with
  | nil => rfl
  | cons s r ih =>
    unfold exactLoopFind
    cases h1 : pyUpper s.desgEstacionPlano == up with
    | true => simp [List.find?_cons, exactMatchB, h1]
    | false =>
      cases h2 : pyUpper s.cdgoEstacion == up with
      | true => simp [List.find?_cons, exactMatchB, h1, h2]
      | false => simp [List.find?_cons, exactMatchB, h1, h2, ih]

/-- The second loop of `find_station` is a `find?` over the per-entry
loose (substring / starts-with) test. -/
theorem looseLoopFind_eq_find (up : String) (l : List Station) :
    looseLoopFind up l = l.find? (looseMatchB up) := by
  induction l with
  | nil => rfl
  | cons s r ih =>
    unfold looseLoopFind
    dsimp only
    cases h1 : strContainsB (pyUpper s.desgEstacionPlano) up ||
        pyStartsWith (pyUpper s.desgEstacionPlano) up with
    | true => simp [List.find?_cons, looseMatchB, h1]
    | false => simp [List.find?_cons, looseMatchB, h1, ih]

/-- The `li` descendants of a fare card (feature items). -/
def liElems (card : Node) : List Node :=
  (descendantsOf card).filter (isElemTag "li")

/-- Features are exactly the filtered stripped texts of `liElems`. -/
theorem featuresOf_eq (card : Node) :
    featuresOf card = ((liElems card).map getTextStripN).filter (fun s => s != "") := rfl

/-! ## Concrete documents used by witnesses and counterexamples -/

/-- Document with no train-row marker at all. -/
def demoNoRows : List Node :=
  [.elem "p" [] [.text "hola"]]

/-- First demo fare card, with two feature items. -/
def demoCardA1 : Node :=
  .elem "div" [("class", "seleccion-resumen-bottom card")]
    [ .elem "div" [("class", "card-header")]
        [.elem "span" [("style", "padding-right: 2px")] [.text "Basico"]]
    , .elem "ul" [] [.elem "li" [] [.text "Asiento"], .elem "li" [] [.text "Mesa"]]
    ]

/-- Second demo fare card. -/
def demoCardA2 : Node :=
  .elem "div" [("class", "seleccion-resumen-bottom card")]
    [ .elem "div" [("class", "card-header")]
        [.elem "span" [("style", "padding-right: 2px")] [.text "Elige"]]
    ]

/-- First demo row: two badges and two fare cards (no price data, so
every extraction succeeds with price 0). -/
def demoRowA : Node :=
  .elem "div" [("class", "selectedTren"), ("role", "listitem"), ("id", "tren_a")]
    [ .elem "span" [("class", "badge-amarillo-junto")] [.text "Promo"]
    , .elem "span" [("class", "badge-azul-junto")] [.text "Rapido"]
    , demoCardA1
    , demoCardA2
    ]

/-- Second demo row: empty, everything defaults. -/
def demoRowB : Node :=
  .elem "div" [("class", "selectedTren"), ("role", "listitem"), ("id", "tren_b")] []

/-- Two-row demo document. -/
def demoDoc2 : List Node :=
  [demoRowA, demoRowB]

/-- First fare of `demoRowA`. -/
def demoFareA1 : FareOption :=
  { name := "Basico", price := 0, currency := "EUR", code := none,
    tp_enlace := none, features := ["Asiento", "Mesa"] }

/-- Second fare of `demoRowA`. -/
def demoFareA2 : FareOption :=
  { name := "Elige", price := 0, currency := "EUR", code := none,
    tp_enlace := none, features := [] }

/-- Train extracted from `demoRowA`. -/
def demoTrainA : TrainModel :=
  { train_id := "a", service_type := "Tren", departure_time := "",
    arrival_time := "", duration := "", price_from := 0, currency := "EUR",
    fares := [demoFareA1, demoFareA2], badges := ["Promo", "Rapido"],
    accessible := false, eco_friendly := false }

/-- Train extracted from `demoRowB`. -/
def demoTrainB : TrainModel :=
  { train_id := "b", service_type := "Tren", departure_time := "",
    arrival_time := "", duration := "", price_from := 0, currency := "EUR",
    fares := [], badges := [], accessible := false, eco_friendly := false }

/-! ## Claims -/

/-- C1: for every input (well-formed or malformed HTML), the parser
terminates and returns a list, never raising: an unparseable document
(`none` input) yields the empty list, and a parsed document with no
element matching the train-row marker (div with class `selectedTren`
and role `listitem`) also yields the empty list, never null/absent. -/
theorem parse_totality_and_empty :
    parse_train_list_html none = [] ∧
      ∀ doc : List Node, trainRowsOf doc = [] →
        parse_train_list_html (some doc) = [] := by
  constructor
  · rfl
  · intro doc h
    show (trainRowsOf doc).enum.filterMap (fun p => extractTrain p.1 p.2) = []
    rw [h]
    rfl

/-- Witness for C1 at a concrete document with no matching rows. -/
theorem parse_totality_and_empty_witness :
    trainRowsOf demoNoRows = [] ∧ parse_train_list_html (some demoNoRows) = [] :=
  ⟨rfl, parse_totality_and_empty.2 demoNoRows rfl⟩

/-- Unfolding of the parser on a parsed document. -/
theorem parse_some_eq (doc : List Node) :
    parse_train_list_html (some doc) =
      (trainRowsOf doc).enum.filterMap (fun p => extractTrain p.1 p.2) := rfl

/-- C2: all output ordering is strict document order — trains appear in
the relative order of their rows, fares in the document order of their
fare cards, badges in badge-element order and features in list-item
order; no re-sorting by price, time or any other key is performed. -/
theorem parse_order_preservation :
    (∀ (doc : List Node) (i j : ℕ), i < j →
      ∀ (ri rj : Node) (t u : TrainModel),
        (trainRowsOf doc)[i]? = some ri → (trainRowsOf doc)[j]? = some rj →
        extractTrain i ri = some t → extractTrain j rj = some u →
        [t, u].Sublist (parse_train_list_html (some doc))) ∧
    (∀ (row : Node) (k : ℕ) (t : TrainModel), extractTrain k row = some t →
      ∀ (p q : ℕ), p < q →
        ∀ (cp cq : Node) (f g : FareOption),
          (fareCardsOf row)[p]? = some cp → (fareCardsOf row)[q]? = some cq →
          extractFare cp = some f → extractFare cq = some g →
          [f, g].Sublist t.fares) ∧
    (∀ (row : Node) (k : ℕ) (t : TrainModel), extractTrain k row = some t →
      ∀ (p q : ℕ), p < q →
        ∀ (bp bq : Node),
          (badgeElems row)[p]? = some bp → (badgeElems row)[q]? = some bq →
          getTextStripN bp ≠ "" → getTextStripN bq ≠ "" →
          [getTextStripN bp, getTextStripN bq].Sublist t.badges) ∧
    (∀ (card : Node) (fo : FareOption), extractFare card = some fo →
      ∀ (p q : ℕ), p < q →
        ∀ (lp lq : Node),
          (liElems card)[p]? = some lp → (liElems card)[q]? = some lq →
          getTextStripN lp ≠ "" → getTextStripN lq ≠ "" →
          [getTextStripN lp, getTextStripN lq].Sublist fo.features) := by
  refine ⟨?_, ?_, ?_, ?_⟩
  · intro doc i j hij ri rj t u hri hrj ht hu
    rw [parse_some_eq]
    refine filterMap_pair_sublist (fun p => extractTrain p.1 p.2)
      (trainRowsOf doc).enum i j hij (i, ri) (j, rj) t u ?_ ?_ ht hu
    · rw [List.getElem?_enum, hri]; rfl
    · rw [List.getElem?_enum, hrj]; rfl
  · intro row k t ht p q hpq cp cq f g hcp hcq hf hg
    have hfares : t.fares = faresOf row := (extractTrain_fields ht).2.2.2.2.2.1
    rw [hfares]
    exact filterMap_pair_sublist extractFare (fareCardsOf row) p q hpq cp cq f g
      hcp hcq hf hg
  · intro row k t ht p q hpq bp bq hbp hbq hne1 hne2
    have hbadges : t.badges = badgesOf row := (extractTrain_fields ht).2.2.2.2.2.2.1
    rw [hbadges]
    unfold badgesOf
    rw [map_filter_eq_filterMap]
    refine filterMap_pair_sublist _ (badgeElems row) p q hpq bp bq _ _ hbp hbq ?_ ?_
    · have : (getTextStripN bp == "") = false := by simpa using hne1
      simp [this]
    · have : (getTextStripN bq == "") = false := by simpa using hne2
      simp [this]
  · intro card fo hfo p q hpq lp lq hlp hlq hne1 hne2
    have hfeat : fo.features = featuresOf card := (extractFare_fields hfo).2.1
    rw [hfeat, featuresOf_eq, map_filter_eq_filterMap]
    refine filterMap_pair_sublist _ (liElems card) p q hpq lp lq _ _ hlp hlq ?_ ?_
    · have : (getTextStripN lp == "") = false := by simpa using hne1
      simp [this]
    · have : (getTextStripN lq == "") = false := by simpa using hne2
      simp [this]

/-- Witness for C2 on the two-row demo document: both rows extract, the
first row has two fare cards, two badges and a fare with two feature
items, and every pair appears in document order in the output. -/
theorem parse_order_preservation_witness :
    [demoTrainA, demoTrainB].Sublist (parse_train_list_html (some demoDoc2)) ∧
      [demoFareA1, demoFareA2].Sublist demoTrainA.fares ∧
      ["Promo", "Rapido"].Sublist demoTrainA.badges ∧
      ["Asiento", "Mesa"].Sublist demoFareA1.features := by
  refine ⟨?_, ?_, ?_, ?_⟩
  · exact parse_order_preservation.1 demoDoc2 0 1 (by decide)
      demoRowA demoRowB demoTrainA demoTrainB rfl rfl rfl rfl
  · exact parse_order_preservation.2.1 demoRowA 0 demoTrainA rfl 0 1 (by decide)
      _ _ demoFareA1 demoFareA2 rfl rfl rfl rfl
  · exact parse_order_preservation.2.2.1 demoRowA 0 demoTrainA rfl 0 1 (by decide)
      _ _ rfl rfl (by decide) (by decide)
  · exact parse_order_preservation.2.2.2 demoCardA1 demoFareA1 rfl 0 1 (by decide)
      _ _ rfl rfl (by decide) (by decide)

/-- Row with well-formed id and times whose price-element title is a
bare comma: the digit/comma regex matches `","`, the float conversion
of `"."` raises, and the row-level handler drops the whole row. -/
def demoRowBadPrice : Node :=
  .elem "div" [("class", "selectedTren"), ("role", "listitem"), ("id", "tren_c")]
    [ .elem "h5" [("aria-hidden", "true")] [.text "06:24 h"]
    , .elem "h5" [("aria-hidden", "true")] [.text "08:49 h"]
    , .elem "span" [("class", "precio-final"), ("title", ",")] [.text "x"]
    ]

/-- C3 counterexample: a row with a well-formed id and times but a
price title from which no valid number can be recovered is DROPPED
(the parse result is empty), not emitted with `priceFrom == 0.0`:
field extraction is not isolated per field — the row-level handler
aborts the whole row when the price conversion raises. -/
theorem partial_row_price_abort_cex :
    attrGet demoRowBadPrice "id" = some "tren_c" ∧
      (h5Elems demoRowBadPrice).length = 2 ∧
      precioTitleOf demoRowBadPrice = some "," ∧
      parse_train_list_html (some [demoRowBadPrice]) = [] :=
  ⟨rfl, rfl, rfl, rfl⟩

/-- C3 amended: guarded lookups (absent element, absent/empty title,
or no digit/comma run at all) default `priceFrom` to 0 without
aborting the row, and all other fields are still populated; only a
matched-but-unparsable run (e.g. a bare comma) escapes as an exception
and makes the row-level handler drop the row. -/
theorem partial_row_guarded_default (i : ℕ) (row : Node)
    (h : precioTitleOf row = none ∨
      ∃ ttl, precioTitleOf row = some ttl ∧ firstRun ttl = none) :
    extractTrain i row = some
      { train_id := trainIdOf i row
        service_type := serviceTypeOf row
        departure_time := (timesOf row).1
        arrival_time := (timesOf row).2
        duration := durationOf row
        price_from := 0
        currency := "EUR"
        fares := faresOf row
        badges := badgesOf row
        accessible := (accInfoOf row).1
        eco_friendly := (accInfoOf row).2 } := by
  have hp : priceFromRes row = some 0 := by
    unfold priceFromRes
    rcases h with hnone | ⟨ttl, ht, hr⟩
    · rw [hnone]
    · rw [ht]
      cases hb : ttl == "" with
      | true => simp [hb]
      | false => simp [hb, hr]
  unfold extractTrain
  rw [hp]
  rfl

/-- Row whose price title holds no digit or comma at all (the guarded
default path). -/
def demoRowNoNum : Node :=
  .elem "div" [("class", "selectedTren"), ("role", "listitem"), ("id", "tren_d")]
    [ .elem "h5" [("aria-hidden", "true")] [.text "06:24 h"]
    , .elem "h5" [("aria-hidden", "true")] [.text "08:49 h"]
    , .elem "span" [("class", "precio-final"), ("title", "Precio desde")] []
    ]

/-- Witness for the amended C3: the malformed-but-runless title yields
the full train with price 0. -/
theorem partial_row_guarded_default_witness :
    extractTrain 0 demoRowNoNum = some
      { train_id := trainIdOf 0 demoRowNoNum
        service_type := serviceTypeOf demoRowNoNum
        departure_time := (timesOf demoRowNoNum).1
        arrival_time := (timesOf demoRowNoNum).2
        duration := durationOf demoRowNoNum
        price_from := 0
        currency := "EUR"
        fares := faresOf demoRowNoNum
        badges := badgesOf demoRowNoNum
        accessible := (accInfoOf demoRowNoNum).1
        eco_friendly := (accInfoOf demoRowNoNum).2 } :=
  partial_row_guarded_default 0 demoRowNoNum
    (Or.inr ⟨"Precio desde", rfl, rfl⟩)

/-- Row whose price element is missing entirely but whose fare card
carries prices in both styles. -/
def demoRowPrices : Node :=
  .elem "div" [("class", "selectedTren"), ("role", "listitem"), ("id", "tren_p")]
    [ .elem "span" [("class", "precio-final"), ("title", "Precio desde 49,00")] []
    , .elem "div" [("class", "seleccion-resumen-bottom card"),
        ("data-precio-tarifa", "32,50")] []
    , .elem "div" [("class", "seleccion-resumen-bottom card")] []
    ]

/-- Fare card whose price attribute has a junk character before the
digits; the uniform-extraction rule of the claim would recover 32.50,
but the code passes the whole attribute to the float conversion. -/
def demoCardBadAttr : Node :=
  .elem "div" [("class", "seleccion-resumen-bottom card"),
    ("data-precio-tarifa", "x32,50")] []

/-- C4 counterexample: price normalization is NOT uniform — for the
fare price no digit/comma run is extracted; an attribute like
`"x32,50"` (whose first digit/comma run is `"32,50"`, i.e. 32.50 under
the claimed rule) makes the float conversion raise and the fare is
skipped entirely instead of carrying price 32.50. -/
theorem fare_price_not_uniform_cex :
    extractFare demoCardBadAttr = none ∧
      firstRun "x32,50" = some "32,50" ∧
      pyFloat (commaToDot "32,50") = some (65 / 2) := by
  refine ⟨rfl, rfl, ?_⟩
  show some (((32 : ℕ) : ℚ) + ((50 : ℕ) : ℚ) / (10 : ℚ) ^ (2 : ℕ)) = some (65 / 2)
  norm_num

/-- C4 amended: `priceFrom` extracts the first digit/comma run of the
title and converts commas to dots before parsing ("Precio desde 49,00"
gives 49.00); the fare price converts the WHOLE `data-precio-tarifa`
attribute with commas replaced by dots, with no run extraction
("32,50" gives 32.50); an absent element/attribute or absent run
defaults to 0.0. -/
theorem price_normalization_amended :
    priceFromRes demoRowPrices = some 49 ∧
      (faresOf demoRowPrices).map FareOption.price = [65 / 2, 0] ∧
      firstRun "Precio desde 49,00" = some "49,00" ∧
      priceFromRes demoRowB = some 0 ∧
      farePriceRes demoCardA1 = some 0 := by
  refine ⟨?_, ?_, rfl, rfl, rfl⟩
  · show some (((49 : ℕ) : ℚ) + ((0 : ℕ) : ℚ) / (10 : ℚ) ^ (2 : ℕ)) = some 49
    norm_num
  · show [((32 : ℕ) : ℚ) + ((50 : ℕ) : ℚ) / (10 : ℚ) ^ (2 : ℕ), 0] = [65 / 2, 0]
    norm_num

/-- Row whose id attribute contains the marker substring twice. -/
def demoRowNestedId : Node :=
  .elem "div" [("class", "selectedTren"), ("role", "listitem"),
    ("id", "tren_tren_1")] []

/-- C5 counterexample: for the id attribute `"tren_tren_1"` the code
removes EVERY occurrence of the substring `"tren_"` and produces id
`"1"`, whereas stripping the fixed prefix once would produce
`"tren_1"`. -/
theorem train_id_replace_all_cex :
    (parse_train_list_html (some [demoRowNestedId])).map TrainModel.train_id = ["1"] ∧
      ("1" : String) ≠ "tren_1" :=
  ⟨rfl, by decide⟩

/-- C5 amended: the train id removes every occurrence of the substring
`"tren_"` from the id attribute (not just a leading prefix); an absent
or empty attribute yields `"unknown_<i>"` with `i` the zero-based row
position. -/
theorem train_id_rule_amended (i : ℕ) (row : Node) (t : TrainModel)
    (ht : extractTrain i row = some t) :
    t.train_id = trainIdOf i row ∧
      (∀ v, attrGet row "id" = some v → v ≠ "" →
        trainIdOf i row = pyReplaceAll v "tren_" "") ∧
      (attrGet row "id" = none → trainIdOf i row = "unknown_" ++ toString i) := by
  refine ⟨(extractTrain_fields ht).1, ?_, ?_⟩
  · intro v hv hne
    unfold trainIdOf
    rw [hv]
    have hvb : (v == "") = false := by simpa using hne
    simp [hvb]
  · intro hv
    unfold trainIdOf
    rw [hv]

/-- Witness for the amended C5 at the first demo row (id `tren_a`). -/
theorem train_id_rule_amended_witness :
    demoTrainA.train_id = trainIdOf 0 demoRowA ∧
      trainIdOf 0 demoRowA = pyReplaceAll "tren_a" "tren_" "" :=
  ⟨(train_id_rule_amended 0 demoRowA demoTrainA rfl).1,
   (train_id_rule_amended 0 demoRowA demoTrainA rfl).2.1 "tren_a" rfl (by decide)⟩

/-- Element whose single class token merely contains the two marker
strings as substrings. -/
def demoFakeCard : Node :=
  .elem "div" [("class", "seleccion-resumen-bottom-card")] []

/-- C6 counterexample: fare cards are NOT selected by token-list
membership — the element with the single class token
`seleccion-resumen-bottom-card` carries neither the token
`seleccion-resumen-bottom` nor the token `card`, yet it is selected as
a fare card, because the lambda tests substring containment on each
token (and on the space-joined token list). -/
theorem fare_card_substring_cex :
    isFareCardB demoFakeCard = true ∧
      classTokenList demoFakeCard = ["seleccion-resumen-bottom-card"] ∧
      "seleccion-resumen-bottom" ∉ classTokenList demoFakeCard ∧
      "card" ∉ classTokenList demoFakeCard := by
  refine ⟨rfl, rfl, ?_, ?_⟩ <;> decide

/-- C6 amended: selection is by substring containment of both marker
strings over each class token and over the space-joined token list; an
element carrying both exact tokens is therefore always selected, but
unrelated class names that merely contain the strings as substrings
are selected too. -/
theorem fare_card_token_membership_sound (n : Node)
    (hdiv : isElemTag "div" n = true)
    (h1 : "seleccion-resumen-bottom" ∈ classTokenList n)
    (h2 : "card" ∈ classTokenList n) :
    isFareCardB n = true := by
  unfold isFareCardB
  rw [hdiv, Bool.true_and]
  have hj1 := strContainsB_joinSp_of_mem h1
  have hj2 := strContainsB_joinSp_of_mem h2
  have hne : (joinSp (classTokenList n) == "") = false := by
    cases he : joinSp (classTokenList n) == "" with
    | false => rfl
    | true =>
      have he' : joinSp (classTokenList n) = "" := by simpa using he
      rw [he'] at hj2
      exact absurd hj2 (by decide)
  unfold classFunMatchB
  cases hcl : attrGet n "class" with
  | none =>
    exfalso
    unfold classTokenList at h1
    rw [hcl] at h1
    cases h1
  | some v =>
    dsimp only
    have hfp : farePredB (joinSp (classTokenList n)) = true := by
      unfold farePredB
      rw [Bool.and_eq_true, Bool.and_eq_true]
      refine ⟨⟨?_, hj1⟩, hj2⟩
      simp [bne, hne]
    rw [hfp]
    simp

/-- Element carrying both exact marker tokens. -/
def demoRealCard : Node :=
  .elem "div" [("class", "seleccion-resumen-bottom card extra")] []

/-- Witness for the amended C6: both tokens present implies selection. -/
theorem fare_card_token_membership_sound_witness :
    isFareCardB demoRealCard = true :=
  fare_card_token_membership_sound demoRealCard rfl (by decide) (by decide)

/-- Row whose fare card carries a negative price attribute. -/
def demoRowNegFare : Node :=
  .elem "div" [("class", "selectedTren"), ("role", "listitem"), ("id", "tren_n")]
    [ .elem "div" [("class", "seleccion-resumen-bottom card"),
        ("data-precio-tarifa", "-5")] [] ]

/-- C7 counterexample: fare prices are NOT always non-negative — a
fare card whose `data-precio-tarifa` attribute is `"-5"` is parsed
verbatim and yields a fare with price −5 inside the parse result. -/
theorem fare_price_negative_cex :
    (parse_train_list_html (some [demoRowNegFare])).map
        (fun t => t.fares.map FareOption.price) = [[-5]] ∧
      (-5 : ℚ) < 0 := by
  constructor
  · show [[-(((5 : ℕ) : ℚ) + ((0 : ℕ) : ℚ) / (10 : ℚ) ^ (0 : ℕ))]] = [[-5]]
    norm_num
  · norm_num

/-- C7 amended: `priceFrom` is always non-negative for every train of
every parse result (the digit/comma run admits no sign character);
fare prices are taken verbatim from the data attribute and can be
negative. -/
theorem price_from_nonneg (input : Option (List Node)) (t : TrainModel)
    (ht : t ∈ parse_train_list_html input) : 0 ≤ t.price_from := by
  cases input with
  | none => simp [parse_train_list_html] at ht
  | some doc =>
    rw [parse_some_eq] at ht
    obtain ⟨⟨i, row⟩, _, hext⟩ := List.mem_filterMap.mp ht
    have hp : priceFromRes row = some t.price_from :=
      (extractTrain_fields hext).2.2.2.2.2.2.2.2.2
    unfold priceFromRes at hp
    cases httl : precioTitleOf row with
    | none =>
      rw [httl] at hp
      injection hp with hp
      rw [← hp]
    | some ttl =>
      rw [httl] at hp
      cases hb : ttl == "" with
      | true =>
        simp only [hb, if_true] at hp
        injection hp with hp
        rw [← hp]
      | false =>
        simp only [hb, Bool.false_eq_true, if_false] at hp
        cases hfr : firstRun ttl with
        | none =>
          rw [hfr] at hp
          injection hp with hp
          rw [← hp]
        | some run =>
          rw [hfr] at hp
          exact pyFloat_nonneg_of_chars
            (commaToDot_chars (firstRun_chars hfr)) hp

/-- Witness for the amended C7 at a concrete parsed train. -/
theorem price_from_nonneg_witness : (0 : ℚ) ≤ demoTrainA.price_from :=
  price_from_nonneg (some demoDoc2) demoTrainA (by decide)

/-- C8: no element of any badges list or of any fare's features list
is empty or whitespace-only, for any input: entries are stripped and
falsy (empty) results are filtered out before inclusion, and a
non-empty stripped-and-joined text always holds a non-whitespace
character. -/
theorem parse_non_blank_entries (input : Option (List Node)) (t : TrainModel)
    (ht : t ∈ parse_train_list_html input) :
    (∀ b ∈ t.badges, isBlankB b = false) ∧
      (∀ fo ∈ t.fares, ∀ s ∈ fo.features, isBlankB s = false) := by
  cases input with
  | none => simp [parse_train_list_html] at ht
  | some doc =>
    rw [parse_some_eq] at ht
    obtain ⟨⟨i, row⟩, _, hext⟩ := List.mem_filterMap.mp ht
    have hf := extractTrain_fields hext
    constructor
    · intro b hb
      rw [hf.2.2.2.2.2.2.1] at hb
      unfold badgesOf at hb
      obtain ⟨hbm, hbne⟩ := List.mem_filter.mp hb
      obtain ⟨bn, _, rfl⟩ := List.mem_map.mp hbm
      exact getTextStripN_not_blank (by simpa using hbne)
    · intro fo hfo s hs
      rw [hf.2.2.2.2.2.1] at hfo
      unfold faresOf at hfo
      obtain ⟨card, _, hcard⟩ := List.mem_filterMap.mp hfo
      rw [(extractFare_fields hcard).2.1, featuresOf_eq] at hs
      obtain ⟨hsm, hsne⟩ := List.mem_filter.mp hs
      obtain ⟨ln, _, rfl⟩ := List.mem_map.mp hsm
      exact getTextStripN_not_blank (by simpa using hsne)

/-- Witness for C8 at a parsed train with a badge and features. -/
theorem parse_non_blank_entries_witness :
    isBlankB "Promo" = false ∧ isBlankB "Asiento" = false :=
  ⟨(parse_non_blank_entries (some demoDoc2) demoTrainA (by decide)).1 "Promo"
      (by decide),
   (parse_non_blank_entries (some demoDoc2) demoTrainA (by decide)).2 demoFareA1
      (by decide) "Asiento" (by decide)⟩

/-- Catalog entry whose station code is MADRID but whose display name
is not. -/
def stMadridCode : Station :=
  { desgEstacionPlano := "AAA", cdgoEstacion := "MADRID", cdgoAdmon := "1",
    desgEstacion := "Aaa", clave := "k1" }

/-- Catalog entry whose display name is MADRID. -/
def stMadridName : Station :=
  { desgEstacionPlano := "MADRID", cdgoEstacion := "BBB", cdgoAdmon := "2",
    desgEstacion := "Madrid", clave := "k2" }

/-- Two-entry demo catalog. -/
def demoCatalog : List Station :=
  [stMadridCode, stMadridName]

/-- C9 counterexample: the matching tiers are NOT applied in the
claimed priority order (display name over the whole catalog first,
then station code) — on a catalog whose only exact display-name match
is the second entry, `find_station` returns the FIRST entry via its
station-code match, because both exact tests run interleaved in a
single pass over the catalog. -/
theorem find_station_tier_order_cex :
    find_station demoCatalog "Madrid" = stMadridCode ∧
      pyUpper stMadridName.desgEstacionPlano = pyUpper "Madrid" ∧
      pyUpper stMadridCode.desgEstacionPlano ≠ pyUpper "Madrid" ∧
      stMadridCode ≠ stMadridName := by
  refine ⟨rfl, rfl, ?_, ?_⟩ <;> decide

/-- C9 amended: `find_station` is total and returns, in priority
order: the first catalog entry whose uppercased display name OR
station code equals the uppercased query (one interleaved pass, name
checked before code within each entry); otherwise the first entry
whose uppercased display name contains (or starts with) the query;
otherwise a synthesized generic record built from the uppercased input
with the code truncated to five characters — it never fails. -/
theorem find_station_characterization (catalog : List Station) (name : String) :
    find_station catalog name =
      match catalog.find? (exactMatchB (pyUpper name)) with
      | some s => s
      | none =>
        match catalog.find? (looseMatchB (pyUpper name)) with
        | some s => s
        | none => genericStation name := by
  unfold find_station
  dsimp only
  rw [exactLoopFind_eq_find, looseLoopFind_eq_find]

/-- Row with fewer than two time markers AND a price title whose
digit/comma run fails the float conversion. -/
def demoRowNoTimesBad : Node :=
  .elem "div" [("class", "selectedTren"), ("role", "listitem"), ("id", "tren_e")]
    [ .elem "span" [("class", "precio-final"), ("title", ",,")] [] ]

/-- C10 counterexample: a row with fewer than two time-marker elements
is NOT always emitted — when its price title is a matched-but-
unparsable run the row-level handler drops the row entirely. -/
theorem missing_times_row_abort_cex :
    (h5Elems demoRowNoTimesBad).length = 0 ∧
      parse_train_list_html (some [demoRowNoTimesBad]) = [] :=
  ⟨rfl, rfl⟩

/-- C10 amended: every row whose extraction succeeds and has fewer
than two time-marker elements (h5 with aria-hidden true) yields a
train with both times empty, and an absent OR present-but-empty id
attribute yields id `"unknown_<i>"`; a row can still be dropped
entirely by the price-conversion exception. -/
theorem times_and_id_defaults (i : ℕ) (row : Node) (t : TrainModel)
    (ht : extractTrain i row = some t) :
    ((h5Elems row).length < 2 → t.departure_time = "" ∧ t.arrival_time = "") ∧
      ((attrGet row "id" = none ∨ attrGet row "id" = some "") →
        t.train_id = "unknown_" ++ toString i) := by
  have hf := extractTrain_fields ht
  constructor
  · intro hlen
    rw [hf.2.2.1, hf.2.2.2.1]
    unfold timesOf
    cases hh : h5Elems row with
    | nil => exact ⟨rfl, rfl⟩
    | cons a rest =>
      cases rest with
      | nil => exact ⟨rfl, rfl⟩
      | cons b r2 =>
        rw [hh] at hlen
        exact absurd hlen (by simp)
  · intro hid
    rw [hf.1]
    unfold trainIdOf
    rcases hid with h | h
    · rw [h]
    · rw [h]
      rfl

/-- Row with a single time marker and an empty id attribute. -/
def demoRowOneH5 : Node :=
  .elem "div" [("class", "selectedTren"), ("role", "listitem"), ("id", "")]
    [ .elem "h5" [("aria-hidden", "true")] [.text "06:24 h"] ]

/-- Train extracted from `demoRowOneH5` at row position 5. -/
def demoTrainE : TrainModel :=
  { train_id := "unknown_5", service_type := "Tren", departure_time := "",
    arrival_time := "", duration := "", price_from := 0, currency := "EUR",
    fares := [], badges := [], accessible := false, eco_friendly := false }

/-- Witness for the amended C10 at a one-marker row with an empty id. -/
theorem times_and_id_defaults_witness :
    (demoTrainE.departure_time = "" ∧ demoTrainE.arrival_time = "") ∧
      demoTrainE.train_id = "unknown_" ++ toString 5 :=
  ⟨(times_and_id_defaults 5 demoRowOneH5 demoTrainE rfl).1 (by decide),
   (times_and_id_defaults 5 demoRowOneH5 demoTrainE rfl).2 (Or.inr rfl)⟩
